import Mathlib

/-!
Verification of the prysmai-python core: the context store (`prysmai/context.py`)
and the header-injecting transport / client factory (`prysmai/client.py`).

The Python code is shallowly embedded:
* `PrysmContext` mirrors the dataclass of the same name; Python dicts are
  association lists (`Md`), Python `Optional[str]` is `Option String`.
* CPython `contextvars` reference semantics are made explicit: a heap of
  `PrysmContext` objects (`List PrysmContext`, index = object identity) plus a
  per-execution-path binding of the context variable (`Option Nat`, `none` =
  variable unbound on this path, in which case `get` returns the module-level
  default object allocated at index 0).  This is needed because
  `_ContextManager.set` mutates the current context object in place and the
  `ContextVar` is declared with a single shared default object.
* Programs over the store are the inductive `Op` (imperative `set`, `clear`,
  a `with prysm_context(...)`-scope with a body, sequencing, and an operation
  that raises an exception, so that scope unwinding on failure is covered).
-/

namespace PrysmAI

/-- Python dict with string keys, modeled as an association list (insertion
order preserved, as in CPython dicts). -/
abbrev Md := List (String × String)

/-- First value bound to key `k`, i.e. Python `d[k]` / `d.get(k)`. -/
def dlookup (k : String) : Md → Option String
  | [] => none
  | p :: rest => if p.1 = k then some p.2 else dlookup k rest

/-- Python `{**a, **b}`: keys of `a` in order (values overridden by `b` where
present), then the keys of `b` that are not in `a`, in `b`'s order. -/
def dictMerge (a b : Md) : Md :=
  a.map (fun p => (p.1, (dlookup p.1 b).getD p.2)) ++
    b.filter (fun p => (dlookup p.1 a).isNone)

/-- Python truthiness of an `Optional[str]`: `None` and `""` are falsy. -/
def truthyS : Option String → Bool
  | none => false
  | some s => !(s == "")

/-- Python `a or b` on `Optional[str]` operands. -/
def pyOr (a b : Option String) : Option String :=
  if truthyS a then a else b

/-- Python truthiness of an `Optional[dict]`: `None` and `{}` are falsy. -/
def truthyD : Option Md → Bool
  | none => false
  | some m => !m.isEmpty

/-- Model of `json.dumps` on a string-valued dict (compact JSON object string). -/
def jsonDumps (m : Md) : String :=
  "\x7b" ++ String.intercalate ", "
    (m.map (fun p => "\x22" ++ p.1 ++ "\x22: \x22" ++ p.2 ++ "\x22")) ++ "\x7d"

/-- The `PrysmContext` dataclass of `prysmai/context.py`. -/
structure PrysmContext where
  user_id : Option String := none
  session_id : Option String := none
  metadata : Md := []
deriving DecidableEq, Repr

/-- Method `to_headers` of `PrysmContext` (context.py lines 31-40): one header per truthy
field, serialized metadata, nothing for falsy fields. -/
def PrysmContext.to_headers (c : PrysmContext) : List (String × String) :=
  (if truthyS c.user_id then [("X-Prysm-User-Id", c.user_id.getD "")] else []) ++
  (if truthyS c.session_id then [("X-Prysm-Session-Id", c.session_id.getD "")] else []) ++
  (if c.metadata.isEmpty then [] else [("X-Prysm-Metadata", jsonDumps c.metadata)])

/-- State of the context store on one execution path: the shared object heap
(index 0 holds the module-level default `PrysmContext()` passed to the
`ContextVar` constructor) and this path's binding of `_prysm_ctx`
(`none` = the variable was never set on this path). -/
structure CtxState where
  heap : List PrysmContext
  binding : Option Nat
deriving DecidableEq, Repr

/-- State at module import time: only the shared default object exists and the
context variable is unbound. -/
def initState : CtxState :=
  { heap := [{}], binding := none }

/-- The heap index `_prysm_ctx.get()` resolves to: the binding if the variable
was set on this path, else the shared default object at index 0. -/
def currentRef (s : CtxState) : Nat :=
  s.binding.getD 0

/-- The `PrysmContext` value `_prysm_ctx.get()` currently denotes. -/
def observe (s : CtxState) : PrysmContext :=
  s.heap.getD (currentRef s) {}

/-- Field update performed by `_ContextManager.set` (context.py lines 56-69):
each argument that `is not None` overwrites the corresponding field of the
current context object. -/
def setFields (c : PrysmContext) (u ss : Option String) (m : Option Md) :
    PrysmContext :=
  { user_id := if u.isSome then u else c.user_id
    session_id := if ss.isSome then ss else c.session_id
    metadata := m.getD c.metadata }

/-- Operation `prysm_context.set(...)`: mutates the object returned by
`_prysm_ctx.get()` in place; the binding is not touched. -/
def doSet (s : CtxState) (u ss : Option String) (m : Option Md) : CtxState :=
  { s with heap := s.heap.set (currentRef s) (setFields (observe s) u ss m) }

/-- Operation `prysm_context.clear()`: runs `_prysm_ctx.set(PrysmContext())` — allocates a
fresh empty context object and rebinds the variable to it. -/
def doClear (s : CtxState) : CtxState :=
  { heap := s.heap ++ [{}], binding := some s.heap.length }

/-- The merged context built by `_ContextScope.__enter__` (context.py lines
103-111): `user_id=self._user_id or old.user_id` (Python `or`, so an empty
string argument is treated as absent), same for `session_id`, and
`metadata={**old.metadata, **(self._metadata or {})}`. -/
def scopeEnterCtx (old : PrysmContext) (u ss : Option String) (m : Option Md) :
    PrysmContext :=
  { user_id := pyOr u old.user_id
    session_id := pyOr ss old.session_id
    metadata := dictMerge old.metadata (m.getD []) }

/-- Scope entry (`__enter__`): allocate the merged context, bind the variable to it, and
keep the token (`_prysm_ctx.set` returns the previous binding). -/
def doScopeEnter (s : CtxState) (u ss : Option String) (m : Option Md) :
    CtxState × Option Nat :=
  ({ heap := s.heap ++ [scopeEnterCtx (observe s) u ss m]
     binding := some s.heap.length },
   s.binding)

/-- Scope exit (`__exit__`): `_prysm_ctx.reset(token)` — restore the saved binding. -/
def doScopeExit (s : CtxState) (tok : Option Nat) : CtxState :=
  { s with binding := tok }

/-- Programs over the context store on one execution path.  `raiseErr` raises
an exception (so scope unwinding on failure is part of the model); `scoped`
is `with prysm_context(u, ss, m): body`. -/
inductive Op where
  | skip
  | set (u ss : Option String) (m : Option Md)
  | clear
  | raiseErr
  | seq (a b : Op)
  | scopedBlock (u ss : Option String) (m : Option Md) (body : Op)
deriving DecidableEq, Repr

/-- Execute a program; the `Bool` is `true` when an exception is propagating.
A `with` block always runs `__exit__`, whether the body completed or raised. -/
def execOp : Op → CtxState → CtxState × Bool
  | .skip, s => (s, false)
  | .set u ss m, s => (doSet s u ss m, false)
  | .clear, s => (doClear s, false)
  | .raiseErr, s => (s, true)
  | .seq a b, s =>
      let r := execOp a s
      if r.2 then r else execOp b r.1
  | .scopedBlock u ss m body, s =>
      let e := doScopeEnter s u ss m
      let r := execOp body e.1
      (doScopeExit r.1 e.2, r.2)

/-- Well-formedness of a single-path state: the current reference denotes an
allocated object. -/
def WFS (s : CtxState) : Prop :=
  currentRef s < s.heap.length

instance : DecidablePred WFS := fun s => by
  unfold WFS; infer_instance

/-- Invariant holding while execution is inside a scope that was entered when
the heap had `L` objects: the variable is bound to an object allocated at or
after the scope's entry. -/
def Inside (L : Nat) (s : CtxState) : Prop :=
  ∃ r, s.binding = some r ∧ L ≤ r ∧ r < s.heap.length

/-- Two execution paths (threads, or asyncio tasks started in fresh contexts)
sharing the object heap, each with its own binding of `_prysm_ctx` — exactly
the CPython picture: `Context` objects hold per-path bindings while Python
objects live in one shared heap. -/
structure TwoPathState where
  heap : List PrysmContext
  bindA : Option Nat
  bindB : Option Nat
deriving DecidableEq, Repr

/-- Both paths fresh: neither has installed an explicit context. -/
def twoPathInit : TwoPathState :=
  { heap := [{}], bindA := none, bindB := none }

inductive PathId where
  | A
  | B
deriving DecidableEq, Repr

/-- The single-path view of one path of a two-path state. -/
def pathView (t : TwoPathState) : PathId → CtxState
  | .A => { heap := t.heap, binding := t.bindA }
  | .B => { heap := t.heap, binding := t.bindB }

/-- Run one program step on the given path; the heap is shared, the other
path's binding is untouched. -/
def stepOnPath (p : PathId) (op : Op) (t : TwoPathState) : TwoPathState :=
  let s := (execOp op (pathView t p)).1
  match p with
  | .A => { heap := s.heap, bindA := s.binding, bindB := t.bindB }
  | .B => { heap := s.heap, bindA := t.bindA, bindB := s.binding }

/-- What `prysm_context.get()` returns on the given path. -/
def observeOn (t : TwoPathState) (p : PathId) : PrysmContext :=
  observe (pathView t p)

/-!  The injecting transport and client factory of `prysmai/client.py`. -/

/-- An outgoing HTTP request: target plus a mutable ordered header list
(httpx keeps headers as an ordered multi-set with case-insensitive names). -/
structure Request where
  url : String
  headers : List (String × String)
deriving DecidableEq, Repr

/-- Lower-casing of header names (httpx normalizes header names
case-insensitively); written over the character list so that it is fully
executable. -/
def lowerStr (s : String) : String :=
  String.mk (s.data.map Char.toLower)

/-- httpx `request.headers[key] = value`: case-insensitive; replaces the first
entry with that name, removes any duplicate entries, appends if absent. -/
def setHeader : List (String × String) → String → String → List (String × String)
  | [], k, v => [(k, v)]
  | p :: rest, k, v =>
      if lowerStr p.1 = lowerStr k then
        (k, v) :: rest.filter (fun q => lowerStr q.1 ≠ lowerStr k)
      else
        p :: setHeader rest k v

/-- Number of header entries carrying the (case-insensitive) name `n`. -/
def countName (hs : List (String × String)) (n : String) : Nat :=
  (hs.filter (fun p => lowerStr p.1 = lowerStr n)).length

/-- Value of the first header entry with (case-insensitive) name `n`,
i.e. httpx `request.headers.get(n)`. -/
def getHeader (hs : List (String × String)) (n : String) : Option String :=
  (hs.find? (fun p => lowerStr p.1 = lowerStr n)).map (fun p => p.2)

/-- Number of entries of a Python dict (exact-name association list) carrying
key `n` — used to state that `to_headers` emits exactly one header per
populated field. -/
def countH (hs : List (String × String)) (n : String) : Nat :=
  (hs.filter (fun p => p.1 = n)).length

/-- Constructor state of `_PrysmTransport` / `_PrysmAsyncTransport`: the
wrapped httpx transport's retry configuration plus the two optional
pass-through fields. -/
structure HTTPTransportCfg where
  retries : Nat
deriving DecidableEq, Repr

structure PrysmTransport where
  wrapped : HTTPTransportCfg
  upstream_api_key : Option String := none
  forward_headers : Option Md := none
deriving DecidableEq, Repr

/-- Method `handle_request` of `_PrysmTransport` (client.py lines 49-63).  `wrappedSend`
models `self._wrapped.handle_request`; its outcome type `ρ` is abstract (a
response, or a raised transport error — whatever it produces is returned
unchanged).  The second component is the list of requests delegated to the
wrapped transport during this call. -/
def handle_request {ρ : Type} (t : PrysmTransport) (wrappedSend : Request → ρ)
    (s : CtxState) (req : Request) : ρ × List Request :=
  let ctx := observe s
  let headers := ctx.to_headers
  let req1 : Request :=
    { req with headers := headers.foldl (fun h p => setHeader h p.1 p.2) req.headers }
  let req2 : Request :=
    if truthyS t.upstream_api_key then
      { req1 with headers :=
          setHeader req1.headers "X-Prysm-Upstream-Key" (t.upstream_api_key.getD "") }
    else req1
  let req3 : Request :=
    if truthyD t.forward_headers then
      { req2 with headers :=
          setHeader req2.headers "X-Prysm-Forward-Headers" (jsonDumps (t.forward_headers.getD [])) }
    else req2
  (wrappedSend req3, [req3])

/-- Method `handle_async_request` of `_PrysmAsyncTransport` (client.py lines 79-93).
Written out separately from the sync variant, mirroring the duplicated Python
method body; the `await` point is the single delegation to `wrappedSend`. -/
def handle_async_request {ρ : Type} (t : PrysmTransport) (wrappedSend : Request → ρ)
    (s : CtxState) (req : Request) : ρ × List Request :=
  let ctx := observe s
  let headers := ctx.to_headers
  let req1 : Request :=
    { req with headers := headers.foldl (fun h p => setHeader h p.1 p.2) req.headers }
  let req2 : Request :=
    if truthyS t.upstream_api_key then
      { req1 with headers :=
          setHeader req1.headers "X-Prysm-Upstream-Key" (t.upstream_api_key.getD "") }
    else req1
  let req3 : Request :=
    if truthyD t.forward_headers then
      { req2 with headers :=
          setHeader req2.headers "X-Prysm-Forward-Headers" (jsonDumps (t.forward_headers.getD [])) }
    else req2
  (wrappedSend req3, [req3])

/-- The derived header set of one `handle` call, in injection order: context
headers, then the optional upstream-key header, then the optional
forward-headers header. -/
def derivedHeaders (t : PrysmTransport) (c : PrysmContext) : List (String × String) :=
  c.to_headers ++
  (if truthyS t.upstream_api_key then
      [("X-Prysm-Upstream-Key", t.upstream_api_key.getD "")] else []) ++
  (if truthyD t.forward_headers then
      [("X-Prysm-Forward-Headers", jsonDumps (t.forward_headers.getD []))] else [])

/-- A single quote character, used in the credential error message. -/
def sq : String := String.singleton (Char.ofNat 39)

/-- The f-string of client.py line 139: the diagnostic embeds
`self.prysm_key[:12]`. -/
def keyErrMsg (key : String) : String :=
  "Invalid Prysm API key format. Expected " ++ sq ++ "sk-prysm-..." ++ sq ++
    " but got " ++ sq ++ key.take 12 ++ "..." ++ sq

/-- The missing-credential message of client.py lines 133-135. -/
def missingKeyMsg : String :=
  "Prysm API key is required. Pass prysm_key= or set PRYSM_API_KEY env var."

/-- Character-list prefix test underlying `pyStartswith`. -/
def chStarts : List Char → List Char → Bool
  | [], _ => true
  | _ :: _, [] => false
  | c :: cs, d :: ds => (c == d) && chStarts cs ds

/-- Python `s.startswith(pre)`. -/
def pyStartswith (s pre : String) : Bool :=
  chStarts pre.data s.data

/-- The relevant environment variables, passed explicitly. -/
structure Env where
  PRYSM_API_KEY : Option String := none
  PRYSM_BASE_URL : Option String := none
deriving DecidableEq, Repr

/-- The attribute record a successfully constructed `PrysmClient` holds. -/
structure PrysmClient where
  prysm_key : String
  base_url : String
  timeout : Rat
  upstream_api_key : Option String
  forward_headers : Option Md
deriving DecidableEq, Repr

/-- Constructor `PrysmClient.__init__` (client.py lines 116-140): resolve the key
(`prysm_key or os.environ.get("PRYSM_API_KEY", "")`) and base URL, then raise
`ValueError` for a missing key or a key without the `sk-prysm-` prefix. -/
def PrysmClient.init (env : Env) (prysm_key : Option String := none)
    (base_url : Option String := none) (timeout : Rat := 120)
    (upstream_api_key : Option String := none)
    (forward_headers : Option Md := none) : Except String PrysmClient :=
  let key := (pyOr prysm_key (some (env.PRYSM_API_KEY.getD ""))).getD ""
  let url := (pyOr base_url
      (some (env.PRYSM_BASE_URL.getD "https://prysmai.io/api/v1"))).getD ""
  if key = "" then
    .error missingKeyMsg
  else if !pyStartswith key "sk-prysm-" then
    .error (keyErrMsg key)
  else
    .ok { prysm_key := key, base_url := url, timeout := timeout
          upstream_api_key := upstream_api_key, forward_headers := forward_headers }

/-- Factory `PrysmClient.openai` (client.py lines 148-152): the transport mounted into
the sync client — `_PrysmTransport(httpx.HTTPTransport(retries=2), ...)`. -/
def PrysmClient.openaiTransport (c : PrysmClient) : PrysmTransport :=
  { wrapped := { retries := 2 }
    upstream_api_key := c.upstream_api_key
    forward_headers := c.forward_headers }

/-- Factory `PrysmClient.async_openai` (client.py lines 172-176): the transport mounted
into the async client — `_PrysmAsyncTransport(httpx.AsyncHTTPTransport(retries=2), ...)`. -/
def PrysmClient.asyncOpenaiTransport (c : PrysmClient) : PrysmTransport :=
  { wrapped := { retries := 2 }
    upstream_api_key := c.upstream_api_key
    forward_headers := c.forward_headers }

/-!  Helper lemmas. -/

theorem truthyS_spec {o : Option String} (h : truthyS o = true) :
    o = some (o.getD "") ∧ o.getD "" ≠ "" := by
  cases o with
  | none => simp [truthyS] at h
  | some s =>
    simp only [truthyS, Bool.not_eq_true', beq_eq_false_iff_ne, ne_eq] at h
    exact ⟨rfl, h⟩

theorem jsonDumps_ne_empty (m : Md) : jsonDumps m ≠ "" := by
  intro h
  have hlen : (jsonDumps m).length = 0 := by rw [h]; rfl
  rw [jsonDumps, String.length_append, String.length_append] at hlen
  have h1 : ("\x7b" : String).length = 1 := rfl
  have h2 : ("\x7d" : String).length = 1 := rfl
  omega

theorem observe_scopeEnter (s : CtxState) (u ss : Option String) (m : Option Md) :
    observe (doScopeEnter s u ss m).1 = scopeEnterCtx (observe s) u ss m := by
  simp [observe, doScopeEnter, currentRef, List.getD_eq_getElem?_getD]

/-- C1: the spec requires that two independent execution paths that each call
`set` observe only their own value.  The code violates this: the `ContextVar`
is declared with one shared default `PrysmContext()` object and
`_ContextManager.set` mutates the object returned by `get()` in place, so when
neither path has an explicit context installed, a `set(user_id="X")` on path A
mutates the shared default and path B's `get()` observes `user_id="X"`. -/
theorem C1_shared_default_leaks_across_paths :
    observeOn (stepOnPath .A (.set (some "X") none none) twoPathInit) .B =
      { user_id := some "X", session_id := none, metadata := [] } ∧
    observeOn (stepOnPath .A (.set (some "X") none none) twoPathInit) .B =
      observeOn (stepOnPath .A (.set (some "X") none none) twoPathInit) .A := by
  constructor <;> rfl

/-- C2 counterexample: the claim says a `set` leaves the fields of a snapshot
previously obtained via `get()` unchanged.  It does not: on a fresh path,
`get()` returns (a reference to) the object at `currentRef initState`, whose
`user_id` field is `none`; the subsequent `set(user_id="u")` mutates that very
object in place, so the captured snapshot now reads `user_id="u"`. -/
theorem C2_set_mutates_captured_snapshot :
    (initState.heap.getD (currentRef initState) {}).user_id = none ∧
    ((doSet initState (some "u") none none).heap.getD
        (currentRef initState) {}).user_id = some "u" := by
  constructor <;> rfl

/-- C2 amended: `set` mutates only the context object currently installed on
the execution path; every other allocated object — in particular a snapshot
that was replaced by an intervening `clear` or scope entry — is untouched, and
`clear` and scope entry themselves never alter existing objects (they allocate
a fresh one and rebind). -/
theorem C2_amended_set_confined (s : CtxState) (u ss : Option String)
    (m : Option Md) (r : Nat) (h1 : r < s.heap.length) :
    (doClear s).heap[r]? = s.heap[r]? ∧
    (doScopeEnter s u ss m).1.heap[r]? = s.heap[r]? ∧
    (r ≠ currentRef s → (doSet s u ss m).heap[r]? = s.heap[r]?) := by
  refine ⟨?_, ?_, ?_⟩
  · simp [doClear, List.getElem?_append_left h1]
  · simp [doScopeEnter, List.getElem?_append_left h1]
  · intro h2
    simp [doSet, List.getElem?_set_ne (Ne.symm h2)]

theorem C2_amended_witness :
    (doClear initState).heap[0]? = initState.heap[0]? ∧
    (doScopeEnter initState (some "u") none none).1.heap[0]? =
      initState.heap[0]? ∧
    (doSet (doClear initState) (some "u") none none).heap[0]? =
      (doClear initState).heap[0]? :=
  ⟨(C2_amended_set_confined initState (some "u") none none 0 (by decide)).1,
   (C2_amended_set_confined initState (some "u") none none 0 (by decide)).2.1,
   (C2_amended_set_confined (doClear initState) (some "u") none none 0
      (by decide)).2.2 (by decide)⟩

/-- C3 counterexample: for the non-empty, wrongly-prefixed credential
`"sk-x"` (shorter than the 12-character truncation width), construction fails
with the format error, and the diagnostic message contains the full
credential verbatim — `key[:12]` is the whole key. -/
theorem C3_short_key_leaks_in_full :
    ("sk-x" ≠ "" ∧ (pyStartswith "sk-x" "sk-prysm-") = false) ∧
    PrysmClient.init {} (some "sk-x") = .error (keyErrMsg "sk-x") ∧
    keyErrMsg "sk-x" =
      ("Invalid Prysm API key format. Expected " ++ sq ++ "sk-prysm-..." ++ sq ++
        " but got " ++ sq) ++ "sk-x" ++ ("..." ++ sq) := by
  exact ⟨⟨by decide, by decide⟩, by rfl, by rfl⟩

/-- C3 amended: for every non-empty credential without the `sk-prysm-` prefix,
construction fails with the format error, and the diagnostic depends only on
the credential's first 12 characters (two credentials agreeing on those 12
characters produce identical messages), so nothing of the secret beyond the
truncation width can leak; the claim's "never the full credential value" is
false for credentials of length at most the truncation width, which appear in
full. -/
theorem C3_amended_truncated_echo (key : String) (env : Env) (h1 : key ≠ "")
    (h2 : pyStartswith key "sk-prysm-" = false) :
    PrysmClient.init env (some key) = .error (keyErrMsg key) ∧
    ∀ key2 : String, key.take 12 = key2.take 12 → keyErrMsg key = keyErrMsg key2 := by
  constructor
  · unfold PrysmClient.init
    have hk : pyOr (some key) (some (env.PRYSM_API_KEY.getD "")) = some key := by
      simp [pyOr, truthyS, h1]
    rw [hk]
    simp [h1, h2]
  · intro key2 h
    unfold keyErrMsg
    rw [h]

theorem C3_amended_witness :
    PrysmClient.init {} (some "sk-openai-bad") = .error (keyErrMsg "sk-openai-bad") ∧
    keyErrMsg "sk-openai-bad" = keyErrMsg "sk-openai-badXYZ" :=
  ⟨(C3_amended_truncated_echo "sk-openai-bad" {} (by decide) (by decide)).1,
   (C3_amended_truncated_echo "sk-openai-bad" {} (by decide) (by decide)).2
     "sk-openai-badXYZ" (by decide)⟩

/-- C4 counterexample: the claim asserts the core configures no internal
retries anywhere; but `PrysmClient.openai()` and `PrysmClient.async_openai()`
construct the wrapped httpx transport with `retries=2`. -/
theorem C4_retries_configured :
    (PrysmClient.openaiTransport
        { prysm_key := "sk-prysm-k", base_url := "https://prysmai.io/api/v1",
          timeout := 120, upstream_api_key := none,
          forward_headers := none }).wrapped.retries = 2 ∧
    (PrysmClient.asyncOpenaiTransport
        { prysm_key := "sk-prysm-k", base_url := "https://prysmai.io/api/v1",
          timeout := 120, upstream_api_key := none,
          forward_headers := none }).wrapped.retries = 2 ∧
    (2 : Nat) ≠ 0 := by
  exact ⟨rfl, rfl, by decide⟩

/-- C4 amended: the injecting transport itself retries nothing — each handle
call (sync and async) delegates to the wrapped send primitive exactly once and
returns that primitive's outcome unchanged (so an error raised by it
propagates as-is) — but the core does configure the underlying httpx
transport it wraps with `retries=2` (connect retries) in both the sync and
async client factories. -/
theorem C4_amended_single_delegation {ρ : Type} (t : PrysmTransport)
    (wrappedSend : Request → ρ) (s : CtxState) (req : Request) (c : PrysmClient) :
    (∃ r, (handle_request t wrappedSend s req).2 = [r] ∧
      (handle_request t wrappedSend s req).1 = wrappedSend r) ∧
    (∃ r, (handle_async_request t wrappedSend s req).2 = [r] ∧
      (handle_async_request t wrappedSend s req).1 = wrappedSend r) ∧
    c.openaiTransport.wrapped.retries = 2 ∧
    c.asyncOpenaiTransport.wrapped.retries = 2 := by
  exact ⟨⟨_, rfl, rfl⟩, ⟨_, rfl, rfl⟩, rfl, rfl⟩

/-- C8: constructions with `"sk-openai-bad"`, with `""`, and with the
credential absent (no environment fallback) all fail with a configuration
error, returned synchronously by the constructor itself; any credential
carrying the `sk-prysm-` prefix is accepted and stored unchanged. -/
theorem C8_credential_validation :
    PrysmClient.init {} (some "sk-openai-bad") = .error (keyErrMsg "sk-openai-bad") ∧
    PrysmClient.init {} (some "") = .error missingKeyMsg ∧
    PrysmClient.init {} none = .error missingKeyMsg ∧
    ∀ (k : String) (env : Env) (b : Option String) (tmo : Rat)
      (u : Option String) (f : Option Md),
      pyStartswith k "sk-prysm-" = true →
      ∃ c, PrysmClient.init env (some k) b tmo u f = .ok c ∧ c.prysm_key = k := by
  refine ⟨by rfl, by rfl, by rfl, ?_⟩
  intro k env b tmo u f hk
  have hne : k ≠ "" := by
    intro h
    rw [h] at hk
    exact absurd hk (by decide)
  unfold PrysmClient.init
  have hkey : pyOr (some k) (some (env.PRYSM_API_KEY.getD "")) = some k := by
    simp [pyOr, truthyS, hne]
  rw [hkey]
  simp [hne, hk]

theorem C8_witness :
    (PrysmClient.init {} (some "sk-prysm-x") none 120 none none).isOk = true := by
  obtain ⟨c, hc, -⟩ :=
    C8_credential_validation.2.2.2 "sk-prysm-x" {} none 120 none none (by decide)
  rw [hc]
  rfl

/-- C9: the synchronous and asynchronous handle operations derive and inject
exactly the same headers and delegate the same single request: as functions of
the transport configuration, current context-store state, wrapped send
primitive, and request, they are equal. -/
theorem C9_sync_async_transport_equal {ρ : Type} (t : PrysmTransport)
    (wrappedSend : Request → ρ) (s : CtxState) (req : Request) :
    handle_request t wrappedSend s req = handle_async_request t wrappedSend s req :=
  rfl

/-- Execution inside a scope preserves the `Inside` invariant, never shrinks
the heap, and never writes to any object allocated before the scope was
entered: `set` only mutates the currently-bound object (whose index is at
least `L`), while `clear` and nested scopes allocate fresh objects. -/
theorem execOp_inside (L : Nat) :
    ∀ (op : Op) (s : CtxState), Inside L s →
      Inside L (execOp op s).1 ∧
      s.heap.length ≤ (execOp op s).1.heap.length ∧
      ∀ i, i < L → (execOp op s).1.heap[i]? = s.heap[i]? := by
  intro op
  induction op with
  | skip =>
    intro s h
    exact ⟨h, Nat.le_refl _, fun i _ => rfl⟩
  | set u ss m =>
    intro s h
    obtain ⟨r, hb, hLr, hrlen⟩ := h
    have hcur : currentRef s = r := by simp [currentRef, hb]
    refine ⟨⟨r, hb, hLr, ?_⟩, ?_, ?_⟩
    · simpa [execOp, doSet] using hrlen
    · simp [execOp, doSet]
    · intro i hi
      have hne : i ≠ currentRef s := by omega
      simp [execOp, doSet, List.getElem?_set_ne (Ne.symm hne)]
  | clear =>
    intro s h
    obtain ⟨r, hb, hLr, hrlen⟩ := h
    refine ⟨⟨s.heap.length, rfl, by omega, by simp [execOp, doClear]⟩, ?_, ?_⟩
    · simp [execOp, doClear]
    · intro i hi
      have hilen : i < s.heap.length := by omega
      simp [execOp, doClear, List.getElem?_append_left hilen]
  | raiseErr =>
    intro s h
    exact ⟨h, Nat.le_refl _, fun i _ => rfl⟩
  | seq a b iha ihb =>
    intro s h
    obtain ⟨h1, hlen1, hst1⟩ := iha s h
    by_cases hE : (execOp a s).2
    · have hr : execOp (.seq a b) s = execOp a s := by
        simp [execOp, hE]
      rw [hr]
      exact ⟨h1, hlen1, hst1⟩
    · have hr : execOp (.seq a b) s = execOp b (execOp a s).1 := by
        simp [execOp, hE]
      obtain ⟨h2, hlen2, hst2⟩ := ihb (execOp a s).1 h1
      rw [hr]
      exact ⟨h2, Nat.le_trans hlen1 hlen2,
        fun i hi => (hst2 i hi).trans (hst1 i hi)⟩
  | scopedBlock u ss m body ih =>
    intro s h
    obtain ⟨r, hb, hLr, hrlen⟩ := h
    have hEnter : Inside L (doScopeEnter s u ss m).1 := by
      refine ⟨s.heap.length, rfl, by omega, by simp [doScopeEnter]⟩
    obtain ⟨h2, hlen2, hst2⟩ := ih (doScopeEnter s u ss m).1 hEnter
    have hlen1 : s.heap.length ≤ (doScopeEnter s u ss m).1.heap.length := by
      simp [doScopeEnter]
    refine ⟨⟨r, hb, hLr, ?_⟩, ?_, ?_⟩
    · show r < (execOp body (doScopeEnter s u ss m).1).1.heap.length
      omega
    · show s.heap.length ≤ (execOp body (doScopeEnter s u ss m).1).1.heap.length
      omega
    · intro i hi
      have hilen : i < s.heap.length := by omega
      calc (execOp (.scopedBlock u ss m body) s).1.heap[i]?
          = (execOp body (doScopeEnter s u ss m).1).1.heap[i]? := rfl
        _ = (doScopeEnter s u ss m).1.heap[i]? := hst2 i hi
        _ = s.heap[i]? := by simp [doScopeEnter, List.getElem?_append_left hilen]

/-- C5: for every scope entered on a well-formed single-path state and every
body (any mix of `set`, `clear`, nested properly-unwound scopes, and an
exception raised inside the body), exiting the scope restores exactly the
binding and the observed context that were active immediately before entry;
since the theorem applies at every `scoped` node of a program, nested scopes
restore in reverse order of entry. -/
theorem C5_scope_restores (u ss : Option String) (m : Option Md) (body : Op)
    (s : CtxState) (hWF : WFS s) :
    (execOp (.scopedBlock u ss m body) s).1.binding = s.binding ∧
    observe (execOp (.scopedBlock u ss m body) s).1 = observe s := by
  have hEnter : Inside s.heap.length (doScopeEnter s u ss m).1 := by
    refine ⟨s.heap.length, rfl, Nat.le_refl _, by simp [doScopeEnter]⟩
  obtain ⟨hIn, hlen, hst⟩ := execOp_inside s.heap.length body
    (doScopeEnter s u ss m).1 hEnter
  have hbind : (execOp (.scopedBlock u ss m body) s).1.binding = s.binding := rfl
  refine ⟨hbind, ?_⟩
  have hcur : currentRef (execOp (.scopedBlock u ss m body) s).1 = currentRef s := by
    simp [currentRef, hbind]
  have hWF2 : currentRef s < s.heap.length := hWF
  have hheap : (execOp (.scopedBlock u ss m body) s).1.heap[currentRef s]? =
      s.heap[currentRef s]? := by
    calc (execOp (.scopedBlock u ss m body) s).1.heap[currentRef s]?
        = (execOp body (doScopeEnter s u ss m).1).1.heap[currentRef s]? := rfl
      _ = (doScopeEnter s u ss m).1.heap[currentRef s]? := hst _ hWF2
      _ = s.heap[currentRef s]? := by
          simp [doScopeEnter, List.getElem?_append_left hWF2]
  rw [observe, observe, hcur, List.getD_eq_getElem?_getD,
    List.getD_eq_getElem?_getD, hheap]

theorem C5_witness :
    WFS initState ∧
    (execOp (.scopedBlock (some "inner") (some "sess") none
        (.seq (.set (some "z") none (some [("k", "v")]))
          (.seq .clear .raiseErr))) initState).1.binding = initState.binding ∧
    observe (execOp (.scopedBlock (some "inner") (some "sess") none
        (.seq (.set (some "z") none (some [("k", "v")]))
          (.seq .clear .raiseErr))) initState).1 = observe initState :=
  ⟨by decide,
   (C5_scope_restores (some "inner") (some "sess") none
      (.seq (.set (some "z") none (some [("k", "v")]))
        (.seq .clear .raiseErr)) initState (by decide)).1,
   (C5_scope_restores (some "inner") (some "sess") none
      (.seq (.set (some "z") none (some [("k", "v")]))
        (.seq .clear .raiseErr)) initState (by decide)).2⟩

theorem dlookup_append (k : String) (xs ys : Md) :
    dlookup k (xs ++ ys) = (dlookup k xs).or (dlookup k ys) := by
  induction xs with
  | nil => simp [dlookup, Option.or]
  | cons p rest ih =>
    by_cases h : p.1 = k <;> simp [dlookup, h, ih, Option.or]

theorem dlookup_filter_congr (k : String) (P Q : String × String → Bool)
    (hPQ : ∀ v, P (k, v) = Q (k, v)) :
    ∀ b : Md, dlookup k (b.filter P) = dlookup k (b.filter Q) := by
  intro b
  induction b with
  | nil => rfl
  | cons q rest ih =>
    obtain ⟨q1, q2⟩ := q
    by_cases hk : q1 = k
    · subst hk
      have hpq := hPQ q2
      cases hP : P (q1, q2)
      · have hQ : Q (q1, q2) = false := by rw [← hpq, hP]
        simp [List.filter_cons, hP, hQ, ih]
      · have hQ : Q (q1, q2) = true := by rw [← hpq, hP]
        simp [List.filter_cons, hP, hQ, dlookup]
    · cases hP : P (q1, q2) <;> cases hQ : Q (q1, q2) <;>
        simp [List.filter_cons, hP, hQ, dlookup, hk, ih]

theorem dlookup_dictMerge (a b : Md) (k : String) :
    dlookup k (dictMerge a b) = (dlookup k b).or (dlookup k a) := by
  induction a with
  | nil =>
    simp [dictMerge, dlookup, Option.or]
    cases h : dlookup k b <;> simp [h]
  | cons p as ih =>
    by_cases hk : p.1 = k
    · simp only [dictMerge, List.map_cons, List.cons_append, dlookup, hk, if_pos]
      cases hb : dlookup k b <;> simp [Option.or, hb, hk]
    · have hstep : dlookup k (dictMerge (p :: as) b) =
          dlookup k (as.map (fun q => (q.1, (dlookup q.1 b).getD q.2)) ++
            b.filter (fun q => (dlookup q.1 (p :: as)).isNone)) := by
        simp [dictMerge, dlookup, hk]
      have hfilter : dlookup k (b.filter (fun q => (dlookup q.1 (p :: as)).isNone)) =
          dlookup k (b.filter (fun q => (dlookup q.1 as).isNone)) := by
        apply dlookup_filter_congr
        intro v
        simp [dlookup, hk]
      rw [hstep, dlookup_append, hfilter, ← dlookup_append]
      have : dlookup k (p :: as) = dlookup k as := by simp [dlookup, hk]
      rw [show dictMerge as b =
            as.map (fun q => (q.1, (dlookup q.1 b).getD q.2)) ++
              b.filter (fun q => (dlookup q.1 as).isNone) from rfl] at ih
      rw [ih, dlookup, if_neg hk]

/-- C6 counterexample: the claim says every provided string, including the
empty string, is installed exactly as given.  Entering a scope with
`user_id=""` over an active context with `user_id="outer"` yields a context
whose `user_id` is still `"outer"` — Python `or` treats the provided empty
string as absent. -/
theorem C6_empty_string_not_installed :
    (observe (doScopeEnter (doSet initState (some "outer") none none)
        (some "") none none).1).user_id = some "outer" ∧
    (some "outer" : Option String) ≠ some "" := by
  exact ⟨rfl, by decide⟩

/-- C6 amended: the context visible via `get()` inside a scope installs every
provided non-empty `userId`/`sessionId` exactly as given; a provided empty
string is treated as absent (the field is inherited, a deviation from the
claim forced by Python `or`); each argument not provided inherits the active
context's value; and the metadata is the inherited mapping with the provided
mapping merged key-by-key on top: a key provided in the override maps to the
override's value, any other key to its inherited value. -/
theorem C6_scope_entry_construction (s : CtxState) (u ss : Option String)
    (m : Option Md) :
    (∀ x : String, u = some x → x ≠ "" →
      (observe (doScopeEnter s u ss m).1).user_id = some x) ∧
    ((u = none ∨ u = some "") →
      (observe (doScopeEnter s u ss m).1).user_id = (observe s).user_id) ∧
    (∀ x : String, ss = some x → x ≠ "" →
      (observe (doScopeEnter s u ss m).1).session_id = some x) ∧
    ((ss = none ∨ ss = some "") →
      (observe (doScopeEnter s u ss m).1).session_id = (observe s).session_id) ∧
    (∀ k : String, dlookup k (observe (doScopeEnter s u ss m).1).metadata =
      (dlookup k (m.getD [])).or (dlookup k (observe s).metadata)) := by
  rw [observe_scopeEnter]
  refine ⟨?_, ?_, ?_, ?_, ?_⟩
  · intro x hx hne
    subst hx
    simp [scopeEnterCtx, pyOr, truthyS, hne]
  · intro hu
    rcases hu with h | h <;> subst h <;> simp [scopeEnterCtx, pyOr, truthyS]
  · intro x hx hne
    subst hx
    simp [scopeEnterCtx, pyOr, truthyS, hne]
  · intro hss
    rcases hss with h | h <;> subst h <;> simp [scopeEnterCtx, pyOr, truthyS]
  · intro k
    simp [scopeEnterCtx, dlookup_dictMerge]

theorem C6_witness :
    (observe (doScopeEnter (doSet initState (some "outer") none (some [("a", "1")]))
        (some "inner") none (some [("b", "2")])).1).user_id = some "inner" ∧
    (observe (doScopeEnter (doSet initState (some "outer") none (some [("a", "1")]))
        (some "inner") none (some [("b", "2")])).1).session_id =
      (observe (doSet initState (some "outer") none (some [("a", "1")]))).session_id ∧
    dlookup "a" (observe (doScopeEnter
        (doSet initState (some "outer") none (some [("a", "1")]))
        (some "inner") none (some [("b", "2")])).1).metadata = some "1" ∧
    dlookup "b" (observe (doScopeEnter
        (doSet initState (some "outer") none (some [("a", "1")]))
        (some "inner") none (some [("b", "2")])).1).metadata = some "2" :=
  ⟨(C6_scope_entry_construction (doSet initState (some "outer") none (some [("a", "1")]))
      (some "inner") none (some [("b", "2")])).1 "inner" rfl (by decide),
   (C6_scope_entry_construction (doSet initState (some "outer") none (some [("a", "1")]))
      (some "inner") none (some [("b", "2")])).2.2.2.1 (Or.inl rfl),
   Eq.trans ((C6_scope_entry_construction
      (doSet initState (some "outer") none (some [("a", "1")]))
      (some "inner") none (some [("b", "2")])).2.2.2.2 "a") (by decide),
   Eq.trans ((C6_scope_entry_construction
      (doSet initState (some "outer") none (some [("a", "1")]))
      (some "inner") none (some [("b", "2")])).2.2.2.2 "b") (by decide)⟩

/-- C7: `to_headers` emits exactly one header per populated field — a user-id
header when `userId` holds a non-empty string, a session-id header when
`sessionId` holds a non-empty string, a metadata header carrying the JSON
object string when the metadata mapping is non-empty — zero headers per unset
field, no header ever carries an empty value, and the fully-empty context
yields the empty header set. -/
theorem C7_to_headers_shape (c : PrysmContext) :
    (countH c.to_headers "X-Prysm-User-Id" = if truthyS c.user_id then 1 else 0) ∧
    (countH c.to_headers "X-Prysm-Session-Id" = if truthyS c.session_id then 1 else 0) ∧
    (countH c.to_headers "X-Prysm-Metadata" = if c.metadata.isEmpty then 0 else 1) ∧
    (truthyS c.user_id = true →
      dlookup "X-Prysm-User-Id" c.to_headers = c.user_id) ∧
    (truthyS c.session_id = true →
      dlookup "X-Prysm-Session-Id" c.to_headers = c.session_id) ∧
    (c.metadata.isEmpty = false →
      dlookup "X-Prysm-Metadata" c.to_headers = some (jsonDumps c.metadata)) ∧
    (∀ p ∈ c.to_headers, p.2 ≠ "") ∧
    PrysmContext.to_headers {} = [] := by
  refine ⟨?_, ?_, ?_, ?_, ?_, ?_, ?_, rfl⟩
  · cases hu : truthyS c.user_id <;>
      cases hs : truthyS c.session_id <;>
      cases hm : c.metadata.isEmpty <;>
      simp [PrysmContext.to_headers, hu, hs, hm, countH]
  · cases hu : truthyS c.user_id <;>
      cases hs : truthyS c.session_id <;>
      cases hm : c.metadata.isEmpty <;>
      simp [PrysmContext.to_headers, hu, hs, hm, countH]
  · cases hu : truthyS c.user_id <;>
      cases hs : truthyS c.session_id <;>
      cases hm : c.metadata.isEmpty <;>
      simp [PrysmContext.to_headers, hu, hs, hm, countH]
  · intro hu
    obtain ⟨heq, -⟩ := truthyS_spec hu
    cases hs : truthyS c.session_id <;> cases hm : c.metadata.isEmpty <;>
      simp [PrysmContext.to_headers, hu, hs, hm, dlookup] <;> exact heq.symm
  · intro hs
    obtain ⟨heq, -⟩ := truthyS_spec hs
    cases hu : truthyS c.user_id <;> cases hm : c.metadata.isEmpty <;>
      simp [PrysmContext.to_headers, hu, hs, hm, dlookup] <;> exact heq.symm
  · intro hm
    cases hu : truthyS c.user_id <;> cases hs : truthyS c.session_id <;>
      simp [PrysmContext.to_headers, hu, hs, hm, dlookup]
  · intro p hp
    rw [PrysmContext.to_headers] at hp
    simp only [List.mem_append] at hp
    rcases hp with (hp | hp) | hp
    · cases hu : truthyS c.user_id
      · rw [hu] at hp; simp at hp
      · rw [hu] at hp
        simp only [if_pos] at hp
        obtain ⟨-, hne⟩ := truthyS_spec hu
        simp at hp
        rw [hp]
        exact hne
    · cases hs : truthyS c.session_id
      · rw [hs] at hp; simp at hp
      · rw [hs] at hp
        simp only [if_pos] at hp
        obtain ⟨-, hne⟩ := truthyS_spec hs
        simp at hp
        rw [hp]
        exact hne
    · cases hm : c.metadata.isEmpty
      · rw [hm] at hp
        simp at hp
        rw [hp]
        exact jsonDumps_ne_empty c.metadata
      · rw [hm] at hp; simp at hp

theorem C7_witness :
    countH (PrysmContext.to_headers
      { user_id := some "u1", session_id := none,
        metadata := [("env", "test")] }) "X-Prysm-User-Id" = 1 ∧
    countH (PrysmContext.to_headers
      { user_id := some "u1", session_id := none,
        metadata := [("env", "test")] }) "X-Prysm-Session-Id" = 0 ∧
    dlookup "X-Prysm-User-Id" (PrysmContext.to_headers
      { user_id := some "u1", session_id := none,
        metadata := [("env", "test")] }) = some "u1" ∧
    dlookup "X-Prysm-Metadata" (PrysmContext.to_headers
      { user_id := some "u1", session_id := none,
        metadata := [("env", "test")] }) =
      some (jsonDumps [("env", "test")]) :=
  ⟨Eq.trans ((C7_to_headers_shape
      { user_id := some "u1", session_id := none,
        metadata := [("env", "test")] }).1) (by decide),
   Eq.trans ((C7_to_headers_shape
      { user_id := some "u1", session_id := none,
        metadata := [("env", "test")] }).2.1) (by decide),
   (C7_to_headers_shape
      { user_id := some "u1", session_id := none,
        metadata := [("env", "test")] }).2.2.2.1 (by decide),
   (C7_to_headers_shape
      { user_id := some "u1", session_id := none,
        metadata := [("env", "test")] }).2.2.2.2.2.1 (by decide)⟩

theorem find?_filter_imp {α : Type} (p q : α → Bool) (l : List α)
    (h : ∀ x ∈ l, p x = true → q x = true) :
    (l.filter q).find? p = l.find? p := by
  induction l with
  | nil => rfl
  | cons x rest ih =>
    have hrest : ∀ y ∈ rest, p y = true → q y = true :=
      fun y hy => h y (List.mem_cons_of_mem x hy)
    cases hq : q x
    · have hp : p x = false := by
        cases hp : p x
        · rfl
        · rw [h x (List.mem_cons_self x rest) hp] at hq; cases hq
      simp [List.filter_cons, hq, List.find?, hp, ih hrest]
    · cases hp : p x <;> simp [List.filter_cons, hq, List.find?, hp, ih hrest]

theorem filter_filter_imp {α : Type} (p q : α → Bool) (l : List α)
    (h : ∀ x ∈ l, p x = true → q x = true) :
    (l.filter q).filter p = l.filter p := by
  induction l with
  | nil => rfl
  | cons x rest ih =>
    have hrest : ∀ y ∈ rest, p y = true → q y = true :=
      fun y hy => h y (List.mem_cons_of_mem x hy)
    cases hq : q x
    · have hp : p x = false := by
        cases hp : p x
        · rfl
        · rw [h x (List.mem_cons_self x rest) hp] at hq; cases hq
      simp [List.filter_cons, hq, hp, ih hrest]
    · cases hp : p x <;> simp [List.filter_cons, hq, hp, ih hrest]

theorem getHeader_setHeader_self (hs : List (String × String)) (k v : String) :
    getHeader (setHeader hs k v) k = some v := by
  induction hs with
  | nil => simp [setHeader, getHeader, List.find?]
  | cons p rest ih =>
    by_cases hp : lowerStr p.1 = lowerStr k
    · simp [setHeader, hp, getHeader, List.find?]
    · rw [setHeader, if_neg hp, getHeader, List.find?_cons_of_neg _ (by simp [hp])]
      exact ih

theorem countName_setHeader_self (hs : List (String × String)) (k v : String) :
    countName (setHeader hs k v) k = 1 := by
  induction hs with
  | nil => simp [setHeader, countName]
  | cons p rest ih =>
    by_cases hp : lowerStr p.1 = lowerStr k
    · rw [setHeader, if_pos hp, countName, List.filter_cons_of_pos (by simp)]
      have hdrop : List.filter (fun q => lowerStr q.1 = lowerStr k)
          (rest.filter (fun q => lowerStr q.1 ≠ lowerStr k)) = [] := by
        rw [List.filter_filter]
        apply List.filter_eq_nil_iff.mpr
        intro q hq
        simp
      simp only [List.length_cons]
      rw [show List.filter (fun p => decide (lowerStr p.1 = lowerStr k))
          (List.filter (fun q => decide (lowerStr q.1 ≠ lowerStr k)) rest) = [] from hdrop]
      rfl
    · rw [setHeader, if_neg hp, countName, List.filter_cons_of_neg (by simp [hp])]
      exact ih

theorem setHeader_other (hs : List (String × String)) (k v n : String)
    (h : lowerStr n ≠ lowerStr k) :
    getHeader (setHeader hs k v) n = getHeader hs n ∧
    countName (setHeader hs k v) n = countName hs n := by
  induction hs with
  | nil =>
    constructor
    · simp [setHeader, getHeader, List.find?, Ne.symm h]
    · simp [setHeader, countName, Ne.symm h]
  | cons p rest ih =>
    by_cases hp : lowerStr p.1 = lowerStr k
    · have hpn : ¬lowerStr p.1 = lowerStr n := by
        rw [hp]
        exact fun hc => h hc.symm
      have himp : ∀ x ∈ rest, (fun q => decide (lowerStr q.1 = lowerStr n)) x = true →
          (fun q => decide (lowerStr q.1 ≠ lowerStr k)) x = true := by
        intro x hx hpx
        simp only [decide_eq_true_eq] at hpx ⊢
        rw [hpx]
        exact h
      constructor
      · rw [setHeader, if_pos hp, getHeader,
          List.find?_cons_of_neg _ (by simp [Ne.symm h]), getHeader,
          List.find?_cons_of_neg _ (by simp [hpn]),
          find?_filter_imp _ _ _ himp]
      · rw [setHeader, if_pos hp, countName,
          List.filter_cons_of_neg (by simp [Ne.symm h]), countName,
          List.filter_cons_of_neg (by simp [hpn]),
          filter_filter_imp _ _ _ himp]
    · rw [setHeader, if_neg hp]
      by_cases hpn : lowerStr p.1 = lowerStr n
      · constructor
        · rw [getHeader, List.find?_cons_of_pos _ (by simp [hpn]), getHeader,
            List.find?_cons_of_pos _ (by simp [hpn])]
        · rw [countName, List.filter_cons_of_pos (by simp [hpn]), countName,
            List.filter_cons_of_pos (by simp [hpn])]
          simp only [List.length_cons]
          have h2 := ih.2
          rw [countName, countName] at h2
          rw [h2]
      · constructor
        · rw [getHeader, List.find?_cons_of_neg _ (by simp [hpn]), getHeader,
            List.find?_cons_of_neg _ (by simp [hpn])]
          exact ih.1
        · rw [countName, List.filter_cons_of_neg (by simp [hpn]), countName,
            List.filter_cons_of_neg (by simp [hpn])]
          exact ih.2

theorem foldl_setHeader_untouched (n : String) :
    ∀ (D : List (String × String)), (∀ q ∈ D, lowerStr q.1 ≠ lowerStr n) →
    ∀ hs : List (String × String),
      getHeader (D.foldl (fun h2 p => setHeader h2 p.1 p.2) hs) n = getHeader hs n ∧
      countName (D.foldl (fun h2 p => setHeader h2 p.1 p.2) hs) n = countName hs n := by
  intro D
  induction D with
  | nil => exact fun _ hs => ⟨rfl, rfl⟩
  | cons q rest ih =>
    intro hD hs
    have hq : lowerStr n ≠ lowerStr q.1 :=
      fun hc => hD q (List.mem_cons_self q rest) hc.symm
    have hrest : ∀ x ∈ rest, lowerStr x.1 ≠ lowerStr n :=
      fun x hx => hD x (List.mem_cons_of_mem q hx)
    obtain ⟨hg, hc⟩ := ih hrest (setHeader hs q.1 q.2)
    obtain ⟨hg2, hc2⟩ := setHeader_other hs q.1 q.2 n hq
    exact ⟨by rw [List.foldl_cons, hg, hg2], by rw [List.foldl_cons, hc, hc2]⟩

theorem foldl_setHeader_sets (D : List (String × String))
    (hnd : (D.map (fun p => lowerStr p.1)).Nodup) :
    ∀ hs : List (String × String), ∀ p ∈ D,
      getHeader (D.foldl (fun h2 q => setHeader h2 q.1 q.2) hs) p.1 = some p.2 ∧
      countName (D.foldl (fun h2 q => setHeader h2 q.1 q.2) hs) p.1 = 1 := by
  induction D with
  | nil => intro hs p hp; cases hp
  | cons q rest ih =>
    intro hs p hp
    rw [List.map_cons, List.nodup_cons] at hnd
    rcases List.mem_cons.mp hp with hq | hmem
    · subst hq
      have hrest : ∀ x ∈ rest, lowerStr x.1 ≠ lowerStr p.1 := by
        intro x hx hc
        exact hnd.1 (by
          rw [← hc]
          exact List.mem_map_of_mem (fun r => lowerStr r.1) hx)
      obtain ⟨hg, hc⟩ := foldl_setHeader_untouched p.1 rest hrest
        (setHeader hs p.1 p.2)
      refine ⟨?_, ?_⟩
      · rw [List.foldl_cons, hg, getHeader_setHeader_self]
      · rw [List.foldl_cons, hc, countName_setHeader_self]
    · exact ih hnd.2 (setHeader hs q.1 q.2) p hmem

theorem derivedHeaders_names_nodup (t : PrysmTransport) (c : PrysmContext) :
    ((derivedHeaders t c).map (fun p => lowerStr p.1)).Nodup := by
  rw [derivedHeaders, PrysmContext.to_headers]
  cases h1 : truthyS c.user_id <;> cases h2 : truthyS c.session_id <;>
    cases h3 : c.metadata.isEmpty <;> cases h4 : truthyS t.upstream_api_key <;>
    cases h5 : truthyD t.forward_headers <;>
    simp only [if_pos, if_neg, ite_true, ite_false, Bool.false_eq_true,
      List.nil_append, List.append_nil, List.cons_append, List.map_cons,
      List.map_nil, List.append_assoc] <;> decide

theorem handle_request_trace {ρ : Type} (t : PrysmTransport)
    (wrappedSend : Request → ρ) (s : CtxState) (req : Request) :
    (handle_request t wrappedSend s req).2 =
      [{ url := req.url,
         headers := (derivedHeaders t (observe s)).foldl
           (fun h2 p => setHeader h2 p.1 p.2) req.headers }] := by
  rw [handle_request, derivedHeaders]
  cases h4 : truthyS t.upstream_api_key <;> cases h5 : truthyD t.forward_headers <;>
    simp [h4, h5, List.foldl_append]

/-- C10: whatever headers the outgoing request already carries, each
context-derived header (user-id, session-id, metadata) and each of the
upstream-key and forward-headers headers is written by replacement: on the
request the transport delegates, that header name maps to the newly derived
value and carries exactly one entry (the caller's value is overwritten, never
kept alongside). -/
theorem C10_injection_replaces {ρ : Type} (t : PrysmTransport)
    (wrappedSend : Request → ρ) (s : CtxState) (req : Request) (n v : String)
    (hmem : (n, v) ∈ derivedHeaders t (observe s)) :
    (handle_request t wrappedSend s req).2.map
        (fun r => (getHeader r.headers n, countName r.headers n)) =
      [(some v, 1)] := by
  rw [handle_request_trace]
  obtain ⟨hg, hc⟩ := foldl_setHeader_sets (derivedHeaders t (observe s))
    (derivedHeaders_names_nodup t (observe s)) req.headers (n, v) hmem
  simp only [List.map_cons, List.map_nil]
  rw [show ((n, v) : String × String).1 = n from rfl] at hg hc
  rw [show ((n, v) : String × String).2 = v from rfl] at hg
  rw [hg, hc]

theorem C10_witness :
    (handle_request
        { wrapped := { retries := 2 }, upstream_api_key := some "up-key",
          forward_headers := none }
        (fun _ => (0 : Nat))
        (doSet initState (some "u1") none none)
        { url := "https://prysmai.io/api/v1/chat/completions",
          headers := [("x-prysm-user-id", "stale"), ("Accept", "all")] }).2.map
      (fun r => (getHeader r.headers "X-Prysm-User-Id",
        countName r.headers "X-Prysm-User-Id")) = [(some "u1", 1)] :=
  C10_injection_replaces
    { wrapped := { retries := 2 }, upstream_api_key := some "up-key",
      forward_headers := none }
    (fun _ => (0 : Nat))
    (doSet initState (some "u1") none none)
    { url := "https://prysmai.io/api/v1/chat/completions",
      headers := [("x-prysm-user-id", "stale"), ("Accept", "all")] }
    "X-Prysm-User-Id" "u1" (by decide)

end PrysmAI
